import Mathlib

/-!
Verification of the download-orchestration and delivery pipeline of a
Telegram media-downloader bot (source: `src/bot.py`).

The development shallowly embeds the pipeline's pure logic and control
flow in Lean:

* `sanitize_filename` (bot.py lines 50-53) is embedded directly over
  `List Char`, with Python's `str.strip` modeled by removing leading and
  trailing whitespace characters (`py_strip`).
* `upload_to_gofile` (lines 82-112) is embedded as a recursion over the
  five loop iterations, parameterized by an oracle giving each attempt's
  outcome (exception / HTTP-ok-but-body-not-ok / ok with URL); the
  function returns the result, the list of back-off sleeps performed, and
  the number of attempts made.
* The size-routing comparisons of `_handle_video_result` (lines 920-921),
  `handle_instagram_content` (line 340) and the audio handlers
  (lines 468/526/696) are embedded over the byte size, with Python float
  division modeled exactly in `ℚ` (division by the power of two 2^20 is
  exact in binary floating point for any realistic file size, so the
  rational model agrees with the float comparison).
* The playlist loops `process_playlist` (lines 845-907) and
  `process_audio_playlist` (lines 624-751) are embedded as folds over
  per-item behaviours.  Every `await`ed Telegram/network call that the
  Python code performs inside or outside the per-item `try` is modeled as
  a fallible step (a `Bool` that is `false` when that call raises), so
  the counter updates, the `continue`/abort structure and the temporary
  directory lifecycle are reproduced exactly as in the source.
* The thumbnail block of `download_single_video` (lines 806-826) and the
  Instagram two-stage handler (lines 116-391) are embedded the same way.
-/

namespace Bot

/-! ## Configuration (bot.py lines 28-29, default values) -/

def MAX_PLAYLIST_SIZE : Nat := 50

def MAX_FILE_SIZE_MB : Nat := 49

/-! ## `sanitize_filename` (bot.py lines 50-53)

```python
def sanitize_filename(name: str, max_length: int = 100) -> str:
    if not name: return "unknown_media"
    sanitized = re.sub(r'[\\/*?:"<>|]', "_", name)
    return sanitized[:max_length].strip() or "unknown_media"
```
-/

/-- The characters replaced by the regular expression character class. -/
def invalid_chars : List Char := ['\\', '/', '*', '?', ':', '"', '<', '>', '|']

/-- One step of `re.sub(r'[\\/*?:"<>|]', "_", name)`. -/
def replace_invalid (c : Char) : Char := if c ∈ invalid_chars then '_' else c

/-- Python `str.isspace`-style whitespace recognized by `str.strip`
(ASCII whitespace; the inputs the claims quantify over contain none of the
rarer Unicode space characters). -/
def py_isspace (c : Char) : Bool :=
  c = ' ' || c = '\t' || c = '\n' || c = '\r' || c = '\x0b' || c = '\x0c'

/-- Python `str.strip()`: remove leading and trailing whitespace. -/
def py_strip (l : List Char) : List Char :=
  List.rdropWhile py_isspace (List.dropWhile py_isspace l)

/-- The sentinel `"unknown_media"`. -/
def unknown_media : List Char :=
  ['u', 'n', 'k', 'n', 'o', 'w', 'n', '_', 'm', 'e', 'd', 'i', 'a']

/-- `sanitize_filename` from bot.py lines 50-53.  Python's truthiness test
`if not name` is the emptiness test, and `x or "unknown_media"` returns the
sentinel exactly when `x` is the empty string. -/
def sanitize_filename (name : List Char) (max_length : Nat) : List Char :=
  if name = [] then unknown_media
  else if py_strip ((name.map replace_invalid).take max_length) = [] then unknown_media
  else py_strip ((name.map replace_invalid).take max_length)

/-! ### Helper lemmas about the sanitizer -/

theorem replace_invalid_idem (c : Char) :
    replace_invalid (replace_invalid c) = replace_invalid c := by
  by_cases h : c ∈ invalid_chars
  · simp only [replace_invalid, if_pos h]
    decide
  · simp only [replace_invalid, if_neg h]

theorem mem_of_mem_py_strip {c : Char} {l : List Char} (h : c ∈ py_strip l) : c ∈ l := by
  unfold py_strip at h
  have h1 : c ∈ List.dropWhile py_isspace l :=
    (List.rdropWhile_prefix py_isspace _).sublist.mem h
  exact (List.dropWhile_sublist py_isspace).mem h1

theorem py_strip_length_le (l : List Char) : (py_strip l).length ≤ l.length := by
  unfold py_strip
  exact le_trans (List.rdropWhile_prefix py_isspace _).sublist.length_le
    (List.dropWhile_sublist py_isspace).length_le

theorem dropWhile_py_strip (l : List Char) :
    List.dropWhile py_isspace (py_strip l) = py_strip l := by
  unfold py_strip
  rcases h : List.rdropWhile py_isspace (List.dropWhile py_isspace l) with _ | ⟨a, t⟩
  · rfl
  · have hpre : (a :: t) <+: List.dropWhile py_isspace l := by
      rw [← h]; exact List.rdropWhile_prefix py_isspace _
    obtain ⟨s, hs⟩ := hpre
    have hfix : List.dropWhile py_isspace (a :: t ++ s) = a :: t ++ s := by
      have hidem := List.dropWhile_idempotent py_isspace l
      rw [← hs] at hidem
      exact hidem
    cases hpa : py_isspace a with
    | false => exact List.dropWhile_cons_of_neg (by simp [hpa])
    | true =>
      exfalso
      have hfix2 : List.dropWhile py_isspace (t ++ s) = a :: t ++ s := by
        rw [List.cons_append, List.dropWhile_cons_of_pos hpa] at hfix
        exact hfix
      have h1 := congrArg List.length hfix2
      simp only [List.length_append, List.length_cons] at h1
      have h2 : (List.dropWhile py_isspace (t ++ s)).length ≤ (t ++ s).length :=
        (List.dropWhile_sublist _).length_le
      simp only [List.length_append] at h2
      omega

theorem py_strip_idempotent (l : List Char) : py_strip (py_strip l) = py_strip l := by
  show List.rdropWhile py_isspace (List.dropWhile py_isspace (py_strip l)) = py_strip l
  rw [dropWhile_py_strip]
  show List.rdropWhile py_isspace
      (List.rdropWhile py_isspace (List.dropWhile py_isspace l)) = _
  rw [List.rdropWhile_idempotent]
  rfl

theorem map_replace_invalid_of_image {l : List Char}
    (h : ∀ c ∈ l, replace_invalid c = c) : l.map replace_invalid = l := by
  induction l with
  | nil => rfl
  | cons a t ih =>
    simp only [List.map_cons, h a (List.mem_cons_self a t)]
    rw [ih fun c hc => h c (List.mem_cons_of_mem a hc)]

/-- Claim C8: filename-sanitizer idempotence: for every string `x`,
`sanitize_filename (sanitize_filename x) = sanitize_filename x`
(with the default `max_length = 100`). -/
theorem C8_sanitize_idempotent (x : List Char) :
    sanitize_filename (sanitize_filename x 100) 100 = sanitize_filename x 100 := by
  have hfix : sanitize_filename unknown_media 100 = unknown_media := by decide
  by_cases hx : x = []
  · rw [hx]
    show sanitize_filename (sanitize_filename [] 100) 100 = sanitize_filename [] 100
    have h0 : sanitize_filename ([] : List Char) 100 = unknown_media := by decide
    rw [h0, hfix]
  · by_cases hs : py_strip ((x.map replace_invalid).take 100) = []
    · have h0 : sanitize_filename x 100 = unknown_media := by
        unfold sanitize_filename
        rw [if_neg hx, if_pos hs]
      rw [h0, hfix]
    · have h0 : sanitize_filename x 100 = py_strip ((x.map replace_invalid).take 100) := by
        unfold sanitize_filename
        rw [if_neg hx, if_neg hs]
      have hmap : (py_strip ((x.map replace_invalid).take 100)).map replace_invalid =
          py_strip ((x.map replace_invalid).take 100) := by
        apply map_replace_invalid_of_image
        intro c hc
        have h2 : c ∈ x.map replace_invalid := List.mem_of_mem_take (mem_of_mem_py_strip hc)
        obtain ⟨a, _, ha⟩ := List.mem_map.mp h2
        rw [← ha, replace_invalid_idem]
      have hlen : (py_strip ((x.map replace_invalid).take 100)).length ≤ 100 :=
        le_trans (py_strip_length_le _) (List.length_take_le _ _)
      have htake : ((py_strip ((x.map replace_invalid).take 100)).map replace_invalid).take 100 =
          py_strip ((x.map replace_invalid).take 100) := by
        rw [hmap]
        exact List.take_of_length_le hlen
      have hstrip : py_strip (py_strip ((x.map replace_invalid).take 100)) =
          py_strip ((x.map replace_invalid).take 100) := py_strip_idempotent _
      rw [h0]
      unfold sanitize_filename
      rw [if_neg hs, htake, hstrip, if_neg hs]

/-- A list of underscores is untouched by stripping. -/
theorem py_strip_replicate_underscore (k : Nat) :
    py_strip (List.replicate k '_') = List.replicate k '_' := by
  have hdrop : ∀ m : Nat,
      List.dropWhile py_isspace (List.replicate m '_') = List.replicate m '_' := by
    intro m
    cases m with
    | zero => rfl
    | succ n =>
      rw [List.replicate_succ]
      exact List.dropWhile_cons_of_neg (by decide)
  unfold py_strip List.rdropWhile
  rw [hdrop k, List.reverse_replicate, hdrop k, List.reverse_replicate]

/-- Claim C7 (amended): `sanitize_filename` of the empty string is
`"unknown_media"`; a non-empty string of only invalid filesystem characters
is mapped to a string of underscores of the same (truncated) length, not to
`"unknown_media"`; and for every input the output length is at most 100. -/
theorem C7_sanitize_edges (s : List Char) (hne : s ≠ [])
    (hinv : ∀ c ∈ s, c ∈ invalid_chars) :
    sanitize_filename s 100 = List.replicate (min 100 s.length) '_' ∧
    sanitize_filename [] 100 = unknown_media ∧
    ∀ t : List Char, (sanitize_filename t 100).length ≤ 100 := by
  refine ⟨?_, by decide, ?_⟩
  · have hmap : s.map replace_invalid = List.replicate s.length '_' := by
      have h1 : s.map replace_invalid =
          List.replicate (s.map replace_invalid).length '_' := by
        apply List.eq_replicate_of_mem
        intro b hb
        obtain ⟨a, ha, rfl⟩ := List.mem_map.mp hb
        simp [replace_invalid, hinv a ha]
      rw [h1, List.length_map]
    have hlen1 : 1 ≤ s.length := by
      cases s with
      | nil => exact (hne rfl).elim
      | cons a t => simp
    have hres : py_strip ((s.map replace_invalid).take 100) =
        List.replicate (min 100 s.length) '_' := by
      rw [hmap, List.take_replicate, py_strip_replicate_underscore]
    have hnonnil : List.replicate (min 100 s.length) '_' ≠ [] := by
      apply List.length_pos.mp
      rw [List.length_replicate]
      omega
    unfold sanitize_filename
    rw [if_neg hne, hres, if_neg hnonnil]
  · intro t
    by_cases ht : t = []
    · subst ht; decide
    · by_cases hs : py_strip ((t.map replace_invalid).take 100) = []
      · unfold sanitize_filename
        rw [if_neg ht, if_pos hs]
        decide
      · unfold sanitize_filename
        rw [if_neg ht, if_neg hs]
        exact le_trans (py_strip_length_le _) (List.length_take_le _ _)

/-- Witness for C7 (amended), at the concrete all-invalid input `"?"`. -/
theorem C7_sanitize_edges_witness :
    sanitize_filename ['?'] 100 = List.replicate (min 100 (List.length ['?'])) '_' ∧
    sanitize_filename [] 100 = unknown_media ∧
    ∀ t : List Char, (sanitize_filename t 100).length ≤ 100 :=
  C7_sanitize_edges ['?'] (by decide) (by decide)

/-- Counterexample to C7 as stated: the non-empty all-invalid-character
input `"?"` is sanitized to `"_"`, not to `"unknown_media"`. -/
theorem C7_counterexample :
    sanitize_filename ['?'] 100 = ['_'] ∧ ['_'] ≠ unknown_media := by
  exact ⟨by decide, by decide⟩

/-! ## `upload_to_gofile` (bot.py lines 82-112)

```python
async def upload_to_gofile(file_path: str):
    max_retries, base_delay = 5, 5
    async with httpx.AsyncClient(timeout=60.0) as client:
        for attempt in range(max_retries):
            try:
                ... select server, POST the file ...
                data = upload_response.json()
                if data.get("status") == "ok":
                    return data["data"]["downloadPage"]
            except Exception as e:
                if attempt < max_retries - 1:
                    await asyncio.sleep(base_delay * (2 ** attempt))
    raise Exception("All Gofile upload attempts failed.")
```

Each loop iteration is abstracted by the outcome of its network traffic:
`exn` (any exception: transport error, `raise_for_status`, JSON decoding,
missing keys), `nonOk` (the HTTP POST succeeds but the response body's
`status` field is not `"ok"` — note this raises nothing, so the
`except` block and its back-off sleep are NOT executed), or `ok url`
(body status `"ok"`; the function returns the download page).  The
embedding returns the result (`none` models the final `raise`), the list
of back-off sleeps performed in order, and the number of attempts made.
-/

inductive AttemptResult where
  | exn
  | nonOk
  | ok (downloadPage : List Char)
  deriving DecidableEq

def max_retries : Nat := 5

def base_delay : Nat := 5

def isOkAttempt : AttemptResult → Bool
  | .ok _ => true
  | _ => false

/-- The loop of `upload_to_gofile`, from iteration `i` with `n` iterations
remaining.  The sleep guard `i < max_retries - 1` is the source's
`if attempt < max_retries - 1`. -/
def gofileAux (f : Nat → AttemptResult) : Nat → Nat → Option (List Char) × List Nat × Nat
  | _, 0 => (none, [], 0)
  | i, n + 1 =>
    match f i with
    | .ok url => (some url, [], 1)
    | .nonOk =>
      let r := gofileAux f (i + 1) n
      (r.1, r.2.1, r.2.2 + 1)
    | .exn =>
      let r := gofileAux f (i + 1) n
      if i < max_retries - 1 then (r.1, base_delay * 2 ^ i :: r.2.1, r.2.2 + 1)
      else (r.1, r.2.1, r.2.2 + 1)

def upload_to_gofile (f : Nat → AttemptResult) : Option (List Char) × List Nat × Nat :=
  gofileAux f 0 max_retries

theorem gofileAux_zero (f : Nat → AttemptResult) (i : Nat) :
    gofileAux f i 0 = (none, [], 0) := rfl

theorem gofileAux_attempts_le (f : Nat → AttemptResult) (n : Nat) :
    ∀ i : Nat, (gofileAux f i n).2.2 ≤ n := by
  induction n with
  | zero => intro i; simp [gofileAux]
  | succ m ih =>
    intro i
    show (gofileAux f i (m + 1)).2.2 ≤ m + 1
    unfold gofileAux
    cases f i with
    | ok url => simp
    | nonOk => simpa using ih (i + 1)
    | exn =>
      by_cases h : i < max_retries - 1
      · simpa [h] using ih (i + 1)
      · simpa [h] using ih (i + 1)

theorem gofileAux_all_fail (f : Nat → AttemptResult) (n : Nat) :
    ∀ i : Nat, (∀ k, k < n → isOkAttempt (f (i + k)) = false) →
      (gofileAux f i n).1 = none ∧ (gofileAux f i n).2.2 = n := by
  induction n with
  | zero => intro i _; exact ⟨rfl, rfl⟩
  | succ m ih =>
    intro i h
    have h0 : isOkAttempt (f i) = false := by simpa using h 0 (Nat.succ_pos m)
    have hrest : ∀ k, k < m → isOkAttempt (f (i + 1 + k)) = false := by
      intro k hk
      have := h (k + 1) (by omega)
      simpa [Nat.add_assoc, Nat.add_comm 1 k] using this
    have ihr := ih (i + 1) hrest
    show (gofileAux f i (m + 1)).1 = none ∧ (gofileAux f i (m + 1)).2.2 = m + 1
    unfold gofileAux
    cases hfi : f i with
    | ok url => rw [hfi] at h0; simp [isOkAttempt] at h0
    | nonOk => simpa using ihr
    | exn =>
      by_cases hlt : i < max_retries - 1
      · simpa [hlt] using ihr
      · simpa [hlt] using ihr

theorem gofileAux_first_ok (f : Nat → AttemptResult) (url : List Char) (n : Nat) :
    ∀ i j : Nat, i ≤ j → j < i + n → f j = .ok url →
      (∀ k, i ≤ k → k < j → isOkAttempt (f k) = false) →
      (gofileAux f i n).1 = some url := by
  induction n with
  | zero => intro i j hij hj _ _; omega
  | succ m ih =>
    intro i j hij hj hok hpre
    show (gofileAux f i (m + 1)).1 = some url
    unfold gofileAux
    by_cases hcase : i = j
    · subst hcase
      rw [hok]
    · have hlt : i < j := lt_of_le_of_ne hij hcase
      have hnotok : isOkAttempt (f i) = false := hpre i le_rfl hlt
      have ihr := ih (i + 1) j (by omega) (by omega) hok
        (fun k hk1 hk2 => hpre k (by omega) hk2)
      cases hfi : f i with
      | ok u => rw [hfi] at hnotok; simp [isOkAttempt] at hnotok
      | nonOk => simpa using ihr
      | exn =>
        by_cases hg : i < max_retries - 1
        · simpa [hg] using ihr
        · simpa [hg] using ihr

theorem gofileAux_sleeps_lb (f : Nat → AttemptResult) (n : Nat) :
    ∀ i : Nat, ∀ x ∈ (gofileAux f i n).2.1, base_delay * 2 ^ i ≤ x := by
  induction n with
  | zero => intro i x hx; simp [gofileAux] at hx
  | succ m ih =>
    intro i x hx
    have hstep : base_delay * 2 ^ i ≤ base_delay * 2 ^ (i + 1) := by
      apply Nat.mul_le_mul_left
      exact Nat.pow_le_pow_right (by norm_num) (by omega)
    rw [show gofileAux f i (m + 1) =
        (match f i with
        | .ok url => (some url, [], 1)
        | .nonOk =>
          let r := gofileAux f (i + 1) m
          (r.1, r.2.1, r.2.2 + 1)
        | .exn =>
          let r := gofileAux f (i + 1) m
          if i < max_retries - 1 then (r.1, base_delay * 2 ^ i :: r.2.1, r.2.2 + 1)
          else (r.1, r.2.1, r.2.2 + 1)) from rfl] at hx
    cases hfi : f i with
    | ok url => rw [hfi] at hx; simp at hx
    | nonOk =>
      rw [hfi] at hx
      simp only at hx
      exact le_trans hstep (ih (i + 1) x hx)
    | exn =>
      rw [hfi] at hx
      by_cases hg : i < max_retries - 1
      · simp only [if_pos hg, List.mem_cons] at hx
        rcases hx with rfl | hx
        · exact le_rfl
        · exact le_trans hstep (ih (i + 1) x hx)
      · simp only [if_neg hg] at hx
        exact le_trans hstep (ih (i + 1) x hx)

theorem gofileAux_sleeps_sorted (f : Nat → AttemptResult) (n : Nat) :
    ∀ i : Nat, List.Pairwise (fun a b => a < b) (gofileAux f i n).2.1 := by
  induction n with
  | zero => intro i; simp [gofileAux]
  | succ m ih =>
    intro i
    show List.Pairwise (fun a b => a < b) (gofileAux f i (m + 1)).2.1
    unfold gofileAux
    cases f i with
    | ok url => simp
    | nonOk => simpa using ih (i + 1)
    | exn =>
      by_cases hg : i < max_retries - 1
      · simp only [if_pos hg]
        refine List.Pairwise.cons ?_ (ih (i + 1))
        intro x hx
        have hlb := gofileAux_sleeps_lb f m (i + 1) x hx
        have h2 : base_delay * 2 ^ (i + 1) = 2 * (base_delay * 2 ^ i) := by ring
        have hp : 0 < base_delay * 2 ^ i := by
          unfold base_delay
          positivity
        omega
      · simpa [hg] using ih (i + 1)

theorem gofileAux_congr (f g : Nat → AttemptResult) (n : Nat) :
    ∀ i : Nat, (∀ j, i ≤ j → j < i + n → f j = g j) →
      gofileAux f i n = gofileAux g i n := by
  induction n with
  | zero => intro i _; rfl
  | succ m ih =>
    intro i h
    have hi : f i = g i := h i le_rfl (by omega)
    have ihr := ih (i + 1) (fun j h1 h2 => h j (by omega) (by omega))
    show gofileAux f i (m + 1) = gofileAux g i (m + 1)
    unfold gofileAux
    rw [hi, ihr]

/-- The sleeps the loop performs for attempts `i, …, i + k - 1`: exactly the
attempts that fail with an exception and are below the last attempt index
sleep, each for `base_delay * 2 ^ attempt`. -/
def expected_sleeps_from (f : Nat → AttemptResult) (i k : Nat) : List Nat :=
  ((List.range' i k).filter fun j =>
      decide (f j = AttemptResult.exn) && decide (j < max_retries - 1)).map
    fun j => base_delay * 2 ^ j

theorem expected_sleeps_not_exn (f : Nat → AttemptResult) (i k : Nat)
    (h : f i ≠ AttemptResult.exn) :
    expected_sleeps_from f i (k + 1) = expected_sleeps_from f (i + 1) k := by
  unfold expected_sleeps_from
  rw [List.range'_succ, List.filter_cons]
  simp [h]

theorem expected_sleeps_exn_sleep (f : Nat → AttemptResult) (i k : Nat)
    (h : f i = AttemptResult.exn) (hg : i < max_retries - 1) :
    expected_sleeps_from f i (k + 1) =
      base_delay * 2 ^ i :: expected_sleeps_from f (i + 1) k := by
  unfold expected_sleeps_from
  rw [List.range'_succ, List.filter_cons]
  simp [h, hg]

theorem expected_sleeps_exn_nosleep (f : Nat → AttemptResult) (i k : Nat)
    (h : f i = AttemptResult.exn) (hg : ¬ i < max_retries - 1) :
    expected_sleeps_from f i (k + 1) = expected_sleeps_from f (i + 1) k := by
  unfold expected_sleeps_from
  rw [List.range'_succ, List.filter_cons]
  simp [h, hg]

theorem gofileAux_sleeps_spec (f : Nat → AttemptResult) (n : Nat) :
    ∀ i : Nat,
      (gofileAux f i n).2.1 = expected_sleeps_from f i (gofileAux f i n).2.2 := by
  induction n with
  | zero => intro i; rfl
  | succ m ih =>
    intro i
    show (gofileAux f i (m + 1)).2.1 =
      expected_sleeps_from f i (gofileAux f i (m + 1)).2.2
    unfold gofileAux
    cases hfi : f i with
    | ok url =>
      simp only
      rw [expected_sleeps_not_exn f i 0 (by simp [hfi])]
      rfl
    | nonOk =>
      simp only
      rw [expected_sleeps_not_exn f i _ (by simp [hfi])]
      exact ih (i + 1)
    | exn =>
      by_cases hg : i < max_retries - 1
      · simp only [if_pos hg]
        rw [expected_sleeps_exn_sleep f i _ hfi hg]
        exact congrArg (List.cons _) (ih (i + 1))
      · simp only [if_neg hg]
        rw [expected_sleeps_exn_nosleep f i _ hfi hg]
        exact ih (i + 1)

/-- Claim C5: the remote upload client makes at most 5 attempts; an attempt
whose body status is `"ok"` makes the function return the download-page URL;
when all 5 attempts fail the function raises (models `none`) after exactly 5
attempts, and never consults a 6th attempt; when attempt `i` fails with an
exception and `i < max_retries - 1 = 4`, the loop sleeps exactly
`base_delay * 2 ^ i` before the next attempt — for every oracle the sleeps
performed are exactly `base_delay * 2 ^ i` for the exception attempts
`i < 4`, in attempt order — and the sleeps performed are strictly
increasing. -/
theorem C5_upload_retry (f g : Nat → AttemptResult) (url : List Char) (j : Nat)
    (hfail : ∀ i, i < max_retries → isOkAttempt (f i) = false)
    (hj : j < max_retries) (hok : g j = .ok url)
    (hpre : ∀ k, k < j → isOkAttempt (g k) = false) :
    (upload_to_gofile f).1 = none ∧
    (upload_to_gofile f).2.2 = max_retries ∧
    (upload_to_gofile g).1 = some url ∧
    (∀ i, i < max_retries - 1 → f i = AttemptResult.exn →
      base_delay * 2 ^ i ∈ (upload_to_gofile f).2.1) ∧
    (∀ h : Nat → AttemptResult,
      (upload_to_gofile h).2.1 = expected_sleeps_from h 0 (upload_to_gofile h).2.2) ∧
    (∀ h : Nat → AttemptResult, (upload_to_gofile h).2.2 ≤ max_retries) ∧
    (∀ h : Nat → AttemptResult,
      List.Pairwise (fun a b => a < b) (upload_to_gofile h).2.1) ∧
    (∀ h h' : Nat → AttemptResult, (∀ i, i < max_retries → h i = h' i) →
      upload_to_gofile h = upload_to_gofile h') := by
  have hall := gofileAux_all_fail f max_retries 0 (by intro k hk; simpa using hfail k hk)
  refine ⟨hall.1, hall.2, ?_, ?_, ?_, ?_, ?_, ?_⟩
  · exact gofileAux_first_ok g url max_retries 0 j (Nat.zero_le j) (by omega) hok
      (fun k _ hk => hpre k hk)
  · intro i hi hexn
    unfold upload_to_gofile
    rw [gofileAux_sleeps_spec f max_retries 0, hall.2]
    unfold expected_sleeps_from
    apply List.mem_map.mpr
    refine ⟨i, ?_, rfl⟩
    apply List.mem_filter.mpr
    constructor
    · exact List.mem_range'.mpr ⟨i, by omega, by omega⟩
    · simp [hexn, hi]
  · intro h
    exact gofileAux_sleeps_spec h max_retries 0
  · intro h
    exact gofileAux_attempts_le h max_retries 0
  · intro h
    exact gofileAux_sleeps_sorted h max_retries 0
  · intro h h' hagree
    exact gofileAux_congr h h' max_retries 0 (fun k _ hk => hagree k (by omega))

/-- Witness for C5 at concrete oracles: one that always raises and one that
succeeds on its first attempt. -/
theorem C5_upload_retry_witness :
    (upload_to_gofile (fun _ => .exn)).1 = none ∧
    (upload_to_gofile (fun _ => .exn)).2.2 = max_retries ∧
    (upload_to_gofile (fun _ => .ok ['u'])).1 = some ['u'] ∧
    (∀ i, i < max_retries - 1 → (fun _ => AttemptResult.exn) i = AttemptResult.exn →
      base_delay * 2 ^ i ∈ (upload_to_gofile (fun _ => .exn)).2.1) ∧
    (∀ h : Nat → AttemptResult,
      (upload_to_gofile h).2.1 = expected_sleeps_from h 0 (upload_to_gofile h).2.2) ∧
    (∀ h : Nat → AttemptResult, (upload_to_gofile h).2.2 ≤ max_retries) ∧
    (∀ h : Nat → AttemptResult,
      List.Pairwise (fun a b => a < b) (upload_to_gofile h).2.1) ∧
    (∀ h h' : Nat → AttemptResult, (∀ i, i < max_retries → h i = h' i) →
      upload_to_gofile h = upload_to_gofile h') :=
  C5_upload_retry (fun _ => .exn) (fun _ => .ok ['u']) ['u'] 0
    (fun i _ => rfl) (by decide) rfl (fun k hk => by omega)

/-! ### Claim C6: non-ok body vs. transport failure

In the source, a response body whose `status` is not `"ok"` raises no
exception: the `if data.get("status") == "ok"` test simply fails and the
loop falls through to the next iteration, skipping the `except` block and
therefore the back-off sleep.  A transport failure raises, so it does
sleep.  The two are NOT treated identically. -/

/-- Counterexample to C6 as stated: an oracle whose every attempt returns a
non-ok body performs NO back-off sleeps at all, while an oracle whose every
attempt raises performs the sleeps `[5, 10, 20, 40]`; so a non-ok body is
not treated identically to a transport failure. -/
theorem C6_counterexample :
    upload_to_gofile (fun _ => AttemptResult.nonOk) = (none, [], 5) ∧
    upload_to_gofile (fun _ => AttemptResult.exn) = (none, [5, 10, 20, 40], 5) ∧
    ([] : List Nat) ≠ [5, 10, 20, 40] := by
  refine ⟨by decide, by decide, by decide⟩

/-- Claim C6 (amended): a non-ok response body does consume an attempt and
trigger an immediate retry, but — unlike an attempt that raises — it
performs no back-off sleep: the sleeps are exactly `base_delay * 2 ^ i` for
the attempts `i` that raised an exception with `i < max_retries - 1`. -/
theorem C6_nonok_no_sleep (f : Nat → AttemptResult) (url : List Char)
    (h0 : f 0 = AttemptResult.nonOk) (h1 : f 1 = AttemptResult.ok url) :
    upload_to_gofile f = (some url, [], 2) ∧
    ∀ g : Nat → AttemptResult,
      (upload_to_gofile g).2.1 = expected_sleeps_from g 0 (upload_to_gofile g).2.2 := by
  constructor
  · have e1 : gofileAux f 1 4 = (some url, [], 1) := by
      show gofileAux f 1 (3 + 1) = (some url, [], 1)
      unfold gofileAux
      rw [h1]
    show gofileAux f 0 (4 + 1) = (some url, [], 2)
    unfold gofileAux
    rw [h0]
    simp only
    rw [show (0 + 1 : Nat) = 1 from rfl, e1]
  · intro g
    exact gofileAux_sleeps_spec g max_retries 0

/-- Witness for C6 (amended) at a concrete oracle: non-ok on attempt 0,
success on attempt 1. -/
theorem C6_nonok_no_sleep_witness :
    upload_to_gofile
        (fun i => if i = 0 then AttemptResult.nonOk else AttemptResult.ok ['u']) =
      (some ['u'], [], 2) ∧
    ∀ g : Nat → AttemptResult,
      (upload_to_gofile g).2.1 = expected_sleeps_from g 0 (upload_to_gofile g).2.2 :=
  C6_nonok_no_sleep
    (fun i => if i = 0 then AttemptResult.nonOk else AttemptResult.ok ['u'])
    ['u'] rfl rfl

/-! ## Size routing (claim C2)

`_handle_video_result` (bot.py lines 913-921):
```python
file_size_bytes = os.path.getsize(video_path)
file_size_mb = file_size_bytes / (1024 * 1024)
if file_size_mb > MAX_FILE_SIZE_MB:   # Gofile
else:                                  # inline send_video
```
The division is Python float division; dividing by the power of two
`1024 * 1024 = 2 ^ 20` only shifts the exponent, so it is exact for every
exactly-representable byte count (any size below `2 ^ 53`); the comparison
therefore coincides with the exact rational comparison modeled here.

`handle_instagram_content` (line 340), `handle_youtube_music_audio_download`
(line 468), `handle_youtube_audio_download` (line 526) and
`process_audio_playlist` (line 696) all use
`if file_size <= MAX_FILE_SIZE_MB * 1024 * 1024:` for the inline branch,
Gofile otherwise. -/

/-- Routing decision of `_handle_video_result`: `true` = upload to Gofile. -/
def video_routes_gofile (file_size_bytes : Nat) : Bool :=
  decide ((MAX_FILE_SIZE_MB : ℚ) < (file_size_bytes : ℚ) / (1024 * 1024))

/-- Routing decision of `handle_instagram_content`: `true` = upload to
Gofile (the negation of its inline test). -/
def instagram_routes_gofile (file_size : Nat) : Bool :=
  ! decide (file_size ≤ MAX_FILE_SIZE_MB * 1024 * 1024)

/-- Routing decision of the audio handlers (single, music, playlist item):
`true` = upload to Gofile (the negation of their inline test). -/
def audio_routes_gofile (file_size : Nat) : Bool :=
  ! decide (file_size ≤ MAX_FILE_SIZE_MB * 1024 * 1024)

theorem video_routes_gofile_iff (n : Nat) :
    video_routes_gofile n = true ↔ (MAX_FILE_SIZE_MB : ℚ) < (n : ℚ) / (1024 * 1024) := by
  unfold video_routes_gofile
  exact decide_eq_true_iff

theorem rat_div_boundary (n : Nat) :
    (MAX_FILE_SIZE_MB : ℚ) < (n : ℚ) / (1024 * 1024) ↔
      MAX_FILE_SIZE_MB * 1024 * 1024 < n := by
  have hpos : (0 : ℚ) < 1024 * 1024 := by norm_num
  rw [lt_div_iff₀ hpos]
  constructor
  · intro h
    have h2 : ((MAX_FILE_SIZE_MB * 1024 * 1024 : Nat) : ℚ) < (n : ℚ) := by
      push_cast
      linarith
    exact_mod_cast h2
  · intro h
    have h2 : ((MAX_FILE_SIZE_MB * 1024 * 1024 : Nat) : ℚ) < (n : ℚ) := by
      exact_mod_cast h
    push_cast at h2
    linarith

/-- Claim C2: on every delivery path, the artifact goes to remote upload
(Gofile) iff its byte size divided by `1024 * 1024` strictly exceeds
`MAX_FILE_SIZE_MB`; exactly 49 MB (`49 * 1024 * 1024` bytes) is inline,
one byte more goes to Gofile, and all delivery paths agree. -/
theorem C2_size_routing (n : Nat) :
    (video_routes_gofile n = true ↔
      (MAX_FILE_SIZE_MB : ℚ) < (n : ℚ) / (1024 * 1024)) ∧
    instagram_routes_gofile n = video_routes_gofile n ∧
    audio_routes_gofile n = video_routes_gofile n ∧
    video_routes_gofile (49 * 1024 * 1024) = false ∧
    video_routes_gofile (49 * 1024 * 1024 + 1) = true := by
  have hiff : ∀ m : Nat,
      video_routes_gofile m = true ↔ MAX_FILE_SIZE_MB * 1024 * 1024 < m := by
    intro m
    rw [video_routes_gofile_iff, rat_div_boundary]
  have hinsta : instagram_routes_gofile n = video_routes_gofile n := by
    by_cases h : MAX_FILE_SIZE_MB * 1024 * 1024 < n
    · have hv : video_routes_gofile n = true := (hiff n).mpr h
      have hi : instagram_routes_gofile n = true := by
        unfold instagram_routes_gofile
        simp
        omega
      rw [hv, hi]
    · have hv : video_routes_gofile n ≠ true := fun hc => h ((hiff n).mp hc)
      have hv' : video_routes_gofile n = false := by
        cases hb : video_routes_gofile n
        · rfl
        · exact (hv hb).elim
      have hi : instagram_routes_gofile n = false := by
        unfold instagram_routes_gofile
        simp
        omega
      rw [hv', hi]
  refine ⟨video_routes_gofile_iff n, hinsta, hinsta, ?_, ?_⟩
  · have h : ¬ MAX_FILE_SIZE_MB * 1024 * 1024 < 49 * 1024 * 1024 := by
      unfold MAX_FILE_SIZE_MB
      omega
    cases hb : video_routes_gofile (49 * 1024 * 1024)
    · rfl
    · exact (h ((hiff _).mp hb)).elim
  · apply (hiff _).mpr
    unfold MAX_FILE_SIZE_MB
    omega

/-! ## Playlist batch loops (claims C1, C3, C4)

`process_audio_playlist` (bot.py lines 624-751) and `process_playlist`
(lines 845-907) share the same skeleton:

```python
if original_total_videos > MAX_PLAYLIST_SIZE:
    ...edit "Playlist too large"...; return
videos = videos[:MAX_PLAYLIST_SIZE]
successful_downloads = 0; failed_downloads = 0
for i, video_entry in enumerate(videos, 1):
    video_url = video_entry.get('url') or video_entry.get('webpage_url')
    if not video_url: failed_downloads += 1; continue
    status_msg = await context.bot.send_message(...)      # OUTSIDE the try
    try:
        ... per-item pipeline ...
    except Exception:
        failed_downloads += 1; ...edit error message...; (audio: rmtree)
...final summary message...
```

Each per-item behaviour records, for every fallible `await` the loop body
performs, whether that call succeeds (`true`) or raises (`false`).  The
item step computes the increments of the two counters, whether the item's
temporary directory stays on disk afterwards (a leak), and whether an
exception escapes the loop body (aborting the whole batch, since only the
inner `try` catches). -/

/-- Outcome of one item in a batch loop: counter increments, whether the
item's temp dir leaks, and whether the loop aborts (exception escapes). -/
inductive ItemResult where
  | done (ds df : Nat) (leak : Bool)
  | abort (ds df : Nat) (leak : Bool)
  deriving DecidableEq

/-- Outcome of the `yt_dlp` extraction inside `process_audio_playlist`'s
per-item `try` (bot.py line 683): it either throws, or completes with the
expected output file `base + ".{fmt}"` present or absent. -/
inductive ExtractOutcome where
  | throws
  | ok (fileExists : Bool)
  deriving DecidableEq

/-- Behaviour of one `process_audio_playlist` item: which of the item's
fallible calls succeed.  Fields, in source order:
`hasUrl` — `video_entry.get('url') or video_entry.get('webpage_url')`
is truthy (line 655); `statusSendOk` — the per-item
`context.bot.send_message` (line 663, OUTSIDE the `try`) does not raise;
`extract` — the extraction outcome (line 683); `missingEditOk` — the
"Error on audio" edit in the missing-file branch (line 718) does not
raise; `deliverOk` — the delivery call (`send_audio` line 698 or
`upload_to_gofile` + `send_message` lines 707-714) does not raise;
`deleteOk` — the status-message deletion after success (line 729) does
not raise; `exceptEditOk` — the "Error on audio" edit inside the
`except` block (line 739) does not raise. -/
structure AudioItemBehavior where
  hasUrl : Bool
  statusSendOk : Bool
  extract : ExtractOutcome
  missingEditOk : Bool
  deliverOk : Bool
  deleteOk : Bool
  exceptEditOk : Bool
  deriving DecidableEq

/-- One iteration of the `process_audio_playlist` loop (bot.py lines
654-745), translated branch by branch:

* no URL (line 657): `failed += 1; continue`, no temp dir created;
* the status `send_message` raises (line 663): the exception escapes the
  loop — `abort`, no temp dir created yet;
* `tempfile.mkdtemp()` (line 669) then extraction:
  - extraction raises: `except` (line 736) does `failed += 1`, edits the
    status message (line 739; if that raises the exception escapes and the
    `rmtree` at line 744 is skipped — leak), then `rmtree`;
  - output file exists (line 687): delivery; on success
    `successful += 1` (line 715), `rmtree` (line 726), delete status
    message (line 729; if it raises, the `except` adds `failed += 1` — the
    item is counted twice); if delivery raises, `except` as above (dir
    still live, so `exceptEditOk = false` leaks it);
  - output file missing (line 716): `failed += 1`, edit status message,
    `continue` (line 723) — the `rmtree` at line 726 is SKIPPED, so the
    temp dir leaks; if the edit raises, the `except` adds a second
    `failed += 1` and then does `rmtree`. -/
def audioItemStep (b : AudioItemBehavior) : ItemResult :=
  if b.hasUrl = false then .done 0 1 false
  else if b.statusSendOk = false then .abort 0 0 false
  else
    match b.extract with
    | .throws =>
      if b.exceptEditOk then .done 0 1 false else .abort 0 1 true
    | .ok fileExists =>
      if fileExists then
        if b.deliverOk then
          if b.deleteOk then .done 1 0 false
          else if b.exceptEditOk then .done 1 1 false else .abort 1 1 false
        else
          if b.exceptEditOk then .done 0 1 false else .abort 0 1 true
      else
        if b.missingEditOk then .done 0 1 true
        else if b.exceptEditOk then .done 0 2 false else .abort 0 2 true

/-- Behaviour of the fallible calls inside `_handle_video_result`
(bot.py lines 910-983): `routeSendOk` — the chosen delivery (Gofile
upload + `send_message`, lines 922-934, or `send_video`, lines 936-953)
does not raise; `deleteOk` — the status-message deletion (line 959) does
not raise; `missEditOk` — the "Failed to download" edit in the
missing-file branch (line 966) does not raise; `exceptEditOk` — the
error edit in the `except` block (line 974) does not raise. -/
structure HvrBehavior where
  routeSendOk : Bool
  deleteOk : Bool
  missEditOk : Bool
  exceptEditOk : Bool
  deriving DecidableEq

/-- What `_handle_video_result` does: returns `True`, returns `False`, or
lets an exception escape (only possible when the error edit inside its
`except` block itself raises). -/
inductive HvrOutcome where
  | retTrue
  | retFalse
  | throws
  deriving DecidableEq

/-- `_handle_video_result` (bot.py lines 910-983) as a function of whether
`video_path` exists and of its fallible calls.  The second component
records that its `finally` (lines 980-983) always removes the temp dir
when one is live, on every path — including when the exception
propagates. -/
def handle_video_result (fileExists : Bool) (hb : HvrBehavior) : HvrOutcome × Bool :=
  if fileExists then
    if hb.routeSendOk then
      if hb.deleteOk then (.retTrue, true)
      else if hb.exceptEditOk then (.retFalse, true) else (.throws, true)
    else
      if hb.exceptEditOk then (.retFalse, true) else (.throws, true)
  else
    if hb.missEditOk then (.retFalse, true)
    else if hb.exceptEditOk then (.retFalse, true) else (.throws, true)

/-- Outcome of `download_single_video` as seen by `process_playlist`:
`fail` — it caught an exception internally, removed its own temp dir
(line 841) and returned all-`None`; `ok fileExists` — it returned an
artifact tuple (the video path may still be missing on disk). -/
inductive DsvOutcome where
  | fail
  | ok (fileExists : Bool)
  deriving DecidableEq

/-- Behaviour of one `process_playlist` item (bot.py lines 868-901):
`hasUrl` — line 869; `statusSendOk` — the per-item `send_message`
(line 877, OUTSIDE the `try`); `dsv` — `download_single_video`'s outcome
(line 882); `hvr` — `_handle_video_result`'s fallible calls (line 885);
`exceptEditOk` — the "Error on video" edit inside the `except` block
(line 897). -/
structure VideoItemBehavior where
  hasUrl : Bool
  statusSendOk : Bool
  dsv : DsvOutcome
  hvr : HvrBehavior
  exceptEditOk : Bool
  deriving DecidableEq

/-- One iteration of the `process_playlist` loop.  When
`download_single_video` failed it returned `video_path = None`, so
`_handle_video_result` takes its missing-file branch; the temp dir is
never leaked because `download_single_video` cleans up its own failures
and `_handle_video_result`'s `finally` covers the rest. -/
def videoItemStep (b : VideoItemBehavior) : ItemResult :=
  if b.hasUrl = false then .done 0 1 false
  else if b.statusSendOk = false then .abort 0 0 false
  else
    match (handle_video_result
        (match b.dsv with | .fail => false | .ok f => f) b.hvr).1 with
    | .retTrue => .done 1 0 false
    | .retFalse => .done 0 1 false
    | .throws => if b.exceptEditOk then .done 0 1 false else .abort 0 1 false

/-- Running state of one batch: the two counters of the source and the
number of temp dirs left on disk. -/
structure BatchState where
  successful : Nat
  failed : Nat
  leaked : Nat
  deriving DecidableEq

def bump (st : BatchState) (ds df : Nat) (lk : Bool) : BatchState :=
  ⟨st.successful + ds, st.failed + df, st.leaked + (if lk then 1 else 0)⟩

/-- Fold the loop over the items; the `Bool` is `true` when the loop ran to
completion (so the final summary message is sent) and `false` when an
exception escaped the loop body. -/
def runItems {α : Type} (step : α → ItemResult) : List α → BatchState → BatchState × Bool
  | [], st => (st, true)
  | b :: rest, st =>
    match step b with
    | .done ds df lk => runItems step rest (bump st ds df lk)
    | .abort ds df lk => (bump st ds df lk, false)

/-- Result of a whole batch: rejected up front for being over-size,
finished with a summary, or aborted by an escaped exception. -/
inductive PlaylistOutcome where
  | rejected (found : Nat)
  | summary (st : BatchState) (total : Nat)
  | aborted (st : BatchState)
  deriving DecidableEq

def finishRun (p : BatchState × Bool) (total : Nat) : PlaylistOutcome :=
  if p.2 then .summary p.1 total else .aborted p.1

/-- `process_audio_playlist` (bot.py lines 624-751): reject wholesale when
the manifest exceeds `MAX_PLAYLIST_SIZE` (line 635), else truncate
(line 643) and run the loop. -/
def process_audio_playlist (entries : List AudioItemBehavior) : PlaylistOutcome :=
  if MAX_PLAYLIST_SIZE < entries.length then .rejected entries.length
  else
    finishRun (runItems audioItemStep (entries.take MAX_PLAYLIST_SIZE) ⟨0, 0, 0⟩)
      (entries.take MAX_PLAYLIST_SIZE).length

/-- `process_playlist` (bot.py lines 845-907): same skeleton (lines
852-859). -/
def process_playlist (entries : List VideoItemBehavior) : PlaylistOutcome :=
  if MAX_PLAYLIST_SIZE < entries.length then .rejected entries.length
  else
    finishRun (runItems videoItemStep (entries.take MAX_PLAYLIST_SIZE) ⟨0, 0, 0⟩)
      (entries.take MAX_PLAYLIST_SIZE).length

/-- Claim C1: the audio-playlist loop leaks its item's temporary directory
on the missing-output-file exit path.  The failing input is a one-item
batch whose extraction completes but whose expected output file
`base + ".{fmt}"` does not exist: the `continue` at bot.py line 723 runs
before the `shutil.rmtree` at line 726, so the directory created by
`tempfile.mkdtemp()` at line 669 is never removed (`leaked = 1` after the
batch summary), contradicting the claimed always-cleanup invariant. -/
theorem C1_audio_missing_file_leak :
    process_audio_playlist
        [⟨true, true, .ok false, true, true, true, true⟩] =
      .summary ⟨0, 1, 1⟩ 1 ∧ (1 : Nat) ≠ 0 := by
  exact ⟨by decide, by decide⟩

/-! ### Claims C3 and C4 -/

/-- An item outcome that bumps exactly one of the two counters and lets the
loop continue. -/
def singleCount (r : ItemResult) : Prop :=
  (∃ lk, r = .done 1 0 lk) ∨ (∃ lk, r = .done 0 1 lk)

theorem runItems_cons_done {α : Type} (step : α → ItemResult) (b : α) (rest : List α)
    (st : BatchState) (ds df : Nat) (lk : Bool) (hr : step b = .done ds df lk) :
    runItems step (b :: rest) st = runItems step rest (bump st ds df lk) := by
  show (match step b with
    | .done ds df lk => runItems step rest (bump st ds df lk)
    | .abort ds df lk => (bump st ds df lk, false)) = _
  rw [hr]

theorem runItems_complete {α : Type} (step : α → ItemResult) (l : List α) :
    ∀ st : BatchState, (∀ b ∈ l, singleCount (step b)) →
      (runItems step l st).2 = true ∧
      (runItems step l st).1.successful + (runItems step l st).1.failed =
        st.successful + st.failed + l.length := by
  induction l with
  | nil =>
    intro st _
    exact ⟨rfl, by simp [runItems]⟩
  | cons b rest ih =>
    intro st h
    have hb := h b (List.mem_cons_self b rest)
    rcases hb with ⟨lk, hr⟩ | ⟨lk, hr⟩
    · rw [runItems_cons_done step b rest st 1 0 lk hr]
      have h2 := ih (bump st 1 0 lk) (fun c hc => h c (List.mem_cons_of_mem b hc))
      refine ⟨h2.1, ?_⟩
      rw [h2.2]
      simp [bump, List.length_cons]
      omega
    · rw [runItems_cons_done step b rest st 0 1 lk hr]
      have h2 := ih (bump st 0 1 lk) (fun c hc => h c (List.mem_cons_of_mem b hc))
      refine ⟨h2.1, ?_⟩
      rw [h2.2]
      simp [bump, List.length_cons]
      omega

/-- The condition under which every Telegram status-surface call of an
audio-playlist item succeeds (only the extraction and the delivery may
fail). -/
def audioStatusOpsOk (b : AudioItemBehavior) : Prop :=
  b.statusSendOk = true ∧ b.missingEditOk = true ∧ b.deleteOk = true ∧
    b.exceptEditOk = true

/-- The condition under which every Telegram status-surface call of a
video-playlist item succeeds. -/
def videoStatusOpsOk (b : VideoItemBehavior) : Prop :=
  b.statusSendOk = true ∧ b.hvr.deleteOk = true ∧ b.hvr.missEditOk = true ∧
    b.hvr.exceptEditOk = true ∧ b.exceptEditOk = true

instance (b : AudioItemBehavior) : Decidable (audioStatusOpsOk b) := by
  unfold audioStatusOpsOk
  infer_instance

instance (b : VideoItemBehavior) : Decidable (videoStatusOpsOk b) := by
  unfold videoStatusOpsOk
  infer_instance

theorem audio_singleCount (b : AudioItemBehavior) (h : audioStatusOpsOk b) :
    singleCount (audioItemStep b) := by
  obtain ⟨url, send, ext, miss, deliv, del, exc⟩ := b
  obtain ⟨h1, h2, h3, h4⟩ := h
  simp only at h1 h2 h3 h4
  subst h1; subst h2; subst h3; subst h4
  cases url with
  | false => exact Or.inr ⟨false, rfl⟩
  | true =>
    cases ext with
    | throws => exact Or.inr ⟨false, rfl⟩
    | ok fe =>
      cases fe with
      | false => exact Or.inr ⟨true, rfl⟩
      | true =>
        cases deliv with
        | true => exact Or.inl ⟨false, rfl⟩
        | false => exact Or.inr ⟨false, rfl⟩

theorem video_singleCount (b : VideoItemBehavior) (h : videoStatusOpsOk b) :
    singleCount (videoItemStep b) := by
  obtain ⟨url, send, dsv, hvr, exc⟩ := b
  obtain ⟨route, del, miss, hexc⟩ := hvr
  obtain ⟨h1, h2, h3, h4, h5⟩ := h
  simp only at h1 h2 h3 h4 h5
  subst h1; subst h2; subst h3; subst h4; subst h5
  cases url with
  | false => exact Or.inr ⟨false, rfl⟩
  | true =>
    cases dsv with
    | fail => exact Or.inr ⟨false, rfl⟩
    | ok fe =>
      cases fe with
      | false => exact Or.inr ⟨false, rfl⟩
      | true =>
        cases route with
        | true => exact Or.inl ⟨false, rfl⟩
        | false => exact Or.inr ⟨false, rfl⟩

/-- Counterexample to C3 as stated: one audio-playlist item whose download
and delivery succeed but whose status-message deletion (bot.py line 729,
inside the `try`, after `successful_downloads += 1` at line 715) raises:
the `except` block then also runs `failed_downloads += 1`, so the single
item is counted in BOTH counters and `succeeded + failed = 2 ≠ 1`. -/
theorem C3_counterexample :
    process_audio_playlist [⟨true, true, .ok true, true, true, false, true⟩] =
      .summary ⟨1, 1, 0⟩ 1 ∧ 1 + 1 ≠ 1 := by
  exact ⟨by decide, by decide⟩

/-- Claim C3 (amended): provided the status-surface Telegram calls of each
item (per-item status send, missing-file edit, post-success deletion,
error edit) do not themselves raise, every processed item bumps exactly
one of the two counters exactly once, an exception thrown during an
item's extraction or delivery is caught at the item boundary and later
items are still attempted, and the final summary satisfies
`succeeded + failed = total`; in particular a 3-item batch in which only
item 2's extraction throws yields `succeeded = 2, failed = 1, total = 3`
in both playlist loops. -/
theorem C3_batch_isolation (ea : List AudioItemBehavior) (ev : List VideoItemBehavior)
    (hea : ∀ b ∈ ea, audioStatusOpsOk b) (hev : ∀ b ∈ ev, videoStatusOpsOk b)
    (hla : ea.length ≤ MAX_PLAYLIST_SIZE) (hlv : ev.length ≤ MAX_PLAYLIST_SIZE) :
    (∃ st : BatchState, process_audio_playlist ea = .summary st ea.length ∧
      st.successful + st.failed = ea.length) ∧
    (∃ st : BatchState, process_playlist ev = .summary st ev.length ∧
      st.successful + st.failed = ev.length) ∧
    process_audio_playlist
        [⟨true, true, .ok true, true, true, true, true⟩,
         ⟨true, true, .throws, true, true, true, true⟩,
         ⟨true, true, .ok true, true, true, true, true⟩] =
      .summary ⟨2, 1, 0⟩ 3 ∧
    process_playlist
        [⟨true, true, .ok true, ⟨true, true, true, true⟩, true⟩,
         ⟨true, true, .fail, ⟨true, true, true, true⟩, true⟩,
         ⟨true, true, .ok true, ⟨true, true, true, true⟩, true⟩] =
      .summary ⟨2, 1, 0⟩ 3 := by
  have hna : ¬ MAX_PLAYLIST_SIZE < ea.length := by omega
  have hnv : ¬ MAX_PLAYLIST_SIZE < ev.length := by omega
  have hta : ea.take MAX_PLAYLIST_SIZE = ea := List.take_of_length_le hla
  have htv : ev.take MAX_PLAYLIST_SIZE = ev := List.take_of_length_le hlv
  have hra := runItems_complete audioItemStep ea ⟨0, 0, 0⟩
    (fun b hb => audio_singleCount b (hea b hb))
  have hrv := runItems_complete videoItemStep ev ⟨0, 0, 0⟩
    (fun b hb => video_singleCount b (hev b hb))
  refine ⟨⟨(runItems audioItemStep ea ⟨0, 0, 0⟩).1, ?_, ?_⟩,
    ⟨(runItems videoItemStep ev ⟨0, 0, 0⟩).1, ?_, ?_⟩, by decide, by decide⟩
  · unfold process_audio_playlist
    rw [if_neg hna, hta]
    simp [finishRun, hra.1]
  · have := hra.2
    simpa using this
  · unfold process_playlist
    rw [if_neg hnv, htv]
    simp [finishRun, hrv.1]
  · have := hrv.2
    simpa using this

/-- Witness for C3 (amended) at concrete 3-item batches. -/
theorem C3_batch_isolation_witness :
    (∃ st : BatchState,
      process_audio_playlist
          [⟨true, true, .ok true, true, true, true, true⟩,
           ⟨true, true, .throws, true, true, true, true⟩,
           ⟨true, true, .ok true, true, true, true, true⟩] =
        .summary st (List.length
          [(⟨true, true, .ok true, true, true, true, true⟩ : AudioItemBehavior),
           ⟨true, true, .throws, true, true, true, true⟩,
           ⟨true, true, .ok true, true, true, true, true⟩]) ∧
      st.successful + st.failed = List.length
          [(⟨true, true, .ok true, true, true, true, true⟩ : AudioItemBehavior),
           ⟨true, true, .throws, true, true, true, true⟩,
           ⟨true, true, .ok true, true, true, true, true⟩]) ∧
    (∃ st : BatchState,
      process_playlist
          [⟨true, true, .ok true, ⟨true, true, true, true⟩, true⟩,
           ⟨true, true, .fail, ⟨true, true, true, true⟩, true⟩,
           ⟨true, true, .ok true, ⟨true, true, true, true⟩, true⟩] =
        .summary st (List.length
          [(⟨true, true, .ok true, ⟨true, true, true, true⟩, true⟩ : VideoItemBehavior),
           ⟨true, true, .fail, ⟨true, true, true, true⟩, true⟩,
           ⟨true, true, .ok true, ⟨true, true, true, true⟩, true⟩]) ∧
      st.successful + st.failed = List.length
          [(⟨true, true, .ok true, ⟨true, true, true, true⟩, true⟩ : VideoItemBehavior),
           ⟨true, true, .fail, ⟨true, true, true, true⟩, true⟩,
           ⟨true, true, .ok true, ⟨true, true, true, true⟩, true⟩]) ∧
    process_audio_playlist
        [⟨true, true, .ok true, true, true, true, true⟩,
         ⟨true, true, .throws, true, true, true, true⟩,
         ⟨true, true, .ok true, true, true, true, true⟩] =
      .summary ⟨2, 1, 0⟩ 3 ∧
    process_playlist
        [⟨true, true, .ok true, ⟨true, true, true, true⟩, true⟩,
         ⟨true, true, .fail, ⟨true, true, true, true⟩, true⟩,
         ⟨true, true, .ok true, ⟨true, true, true, true⟩, true⟩] =
      .summary ⟨2, 1, 0⟩ 3 :=
  C3_batch_isolation
    [⟨true, true, .ok true, true, true, true, true⟩,
     ⟨true, true, .throws, true, true, true, true⟩,
     ⟨true, true, .ok true, true, true, true, true⟩]
    [⟨true, true, .ok true, ⟨true, true, true, true⟩, true⟩,
     ⟨true, true, .fail, ⟨true, true, true, true⟩, true⟩,
     ⟨true, true, .ok true, ⟨true, true, true, true⟩, true⟩]
    (by decide) (by decide) (by decide) (by decide)

/-- Claim C4: a manifest strictly larger than `MAX_PLAYLIST_SIZE` is
rejected wholesale (the too-large message is the only outcome; the loop —
and with it every download and every counter update — never runs), while
a manifest of exactly `MAX_PLAYLIST_SIZE` entries enters processing with
ALL of its entries (the truncation `videos[:MAX_PLAYLIST_SIZE]` keeps the
whole list). -/
theorem C4_playlist_rejection (ea : List AudioItemBehavior) (ev : List VideoItemBehavior)
    (ea2 : List AudioItemBehavior) (ev2 : List VideoItemBehavior)
    (ha : MAX_PLAYLIST_SIZE < ea.length) (hv : MAX_PLAYLIST_SIZE < ev.length)
    (ha2 : ea2.length = MAX_PLAYLIST_SIZE) (hv2 : ev2.length = MAX_PLAYLIST_SIZE) :
    process_audio_playlist ea = .rejected ea.length ∧
    process_playlist ev = .rejected ev.length ∧
    process_audio_playlist ea2 =
      finishRun (runItems audioItemStep ea2 ⟨0, 0, 0⟩) ea2.length ∧
    process_playlist ev2 =
      finishRun (runItems videoItemStep ev2 ⟨0, 0, 0⟩) ev2.length := by
  have hta : ea2.take MAX_PLAYLIST_SIZE = ea2 := List.take_of_length_le (le_of_eq ha2)
  have htv : ev2.take MAX_PLAYLIST_SIZE = ev2 := List.take_of_length_le (le_of_eq hv2)
  refine ⟨?_, ?_, ?_, ?_⟩
  · unfold process_audio_playlist
    rw [if_pos ha]
  · unfold process_playlist
    rw [if_pos hv]
  · unfold process_audio_playlist
    rw [if_neg (by omega), hta]
  · unfold process_playlist
    rw [if_neg (by omega), htv]

/-- Witness for C4 at a 51-item manifest (rejected) and a 50-item manifest
(processed in full). -/
theorem C4_playlist_rejection_witness :
    process_audio_playlist
        (List.replicate 51 ⟨true, true, .ok true, true, true, true, true⟩) =
      .rejected (List.replicate 51
        (⟨true, true, .ok true, true, true, true, true⟩ : AudioItemBehavior)).length ∧
    process_playlist
        (List.replicate 51 ⟨true, true, .ok true, ⟨true, true, true, true⟩, true⟩) =
      .rejected (List.replicate 51
        (⟨true, true, .ok true, ⟨true, true, true, true⟩, true⟩ : VideoItemBehavior)).length ∧
    process_audio_playlist
        (List.replicate 50 ⟨true, true, .ok true, true, true, true, true⟩) =
      finishRun
        (runItems audioItemStep
          (List.replicate 50 ⟨true, true, .ok true, true, true, true, true⟩) ⟨0, 0, 0⟩)
        (List.replicate 50
          (⟨true, true, .ok true, true, true, true, true⟩ : AudioItemBehavior)).length ∧
    process_playlist
        (List.replicate 50 ⟨true, true, .ok true, ⟨true, true, true, true⟩, true⟩) =
      finishRun
        (runItems videoItemStep
          (List.replicate 50 ⟨true, true, .ok true, ⟨true, true, true, true⟩, true⟩)
          ⟨0, 0, 0⟩)
        (List.replicate 50
          (⟨true, true, .ok true, ⟨true, true, true, true⟩, true⟩ : VideoItemBehavior)).length :=
  C4_playlist_rejection
    (List.replicate 51 ⟨true, true, .ok true, true, true, true, true⟩)
    (List.replicate 51 ⟨true, true, .ok true, ⟨true, true, true, true⟩, true⟩)
    (List.replicate 50 ⟨true, true, .ok true, true, true, true, true⟩)
    (List.replicate 50 ⟨true, true, .ok true, ⟨true, true, true, true⟩, true⟩)
    (by simp [MAX_PLAYLIST_SIZE]) (by simp [MAX_PLAYLIST_SIZE])
    (by simp [MAX_PLAYLIST_SIZE]) (by simp [MAX_PLAYLIST_SIZE])

/-! ## Thumbnail processing in `download_single_video` (claim C9)

bot.py lines 806-826:
```python
thumbnail_path = None
if thumbnail_url:
    try:
        ... client.get(thumbnail_url); response.raise_for_status()  # fetch
        ... write thumb.jpg
        with Image.open(original_thumbnail_path) as img:            # decode
            ... crop ... resize ...                                 # transform
            thumbnail_path = os.path.join(tmpdir, "thumb_cropped.jpg")
            img_resized.save(thumbnail_path, "JPEG")                # save
    except Exception as e:
        logger.warning(...)
```
The assignment to `thumbnail_path` happens BEFORE `img_resized.save`; if the
save raises, the `except` only logs, so the function proceeds with
`thumbnail_path` already set to the cropped-thumbnail path (whose file is
missing or partial) rather than `None`. -/

/-- Which steps of the thumbnail block succeed, in source order. -/
structure ThumbBehavior where
  fetchOk : Bool
  decodeOk : Bool
  transformOk : Bool
  saveOk : Bool
  deriving DecidableEq

def thumb_cropped_path : List Char :=
  ['t', 'h', 'u', 'm', 'b', '_', 'c', 'r', 'o', 'p', 'p', 'e', 'd', '.', 'j', 'p', 'g']

/-- The value of `thumbnail_path` after the thumbnail block: `none` unless
the flow reaches the assignment at line 823, which requires fetch, decode
and transform to succeed — but NOT the save, whose failure is caught after
the assignment. -/
def thumbnail_step (has_thumbnail_url : Bool) (tb : ThumbBehavior) : Option (List Char) :=
  if has_thumbnail_url = false then none
  else if tb.fetchOk = false then none
  else if tb.decodeOk = false then none
  else if tb.transformOk = false then none
  else some thumb_cropped_path

/-- Metadata of a successfully extracted video, as read from `info_dict`
(bot.py lines 800-803): title, uploader, the file's extension, and the
original `%(id)s.%(ext)s` output path. -/
structure VideoMeta where
  title : List Char
  uploader : List Char
  ext : List Char
  id_path : List Char
  deriving DecidableEq

/-- The tuple returned by `download_single_video` on its successful path
(bot.py line 837), omitting the temp-dir handle. -/
structure DsvResult where
  video_path : List Char
  uploader : List Char
  title : List Char
  thumbnail_path : Option (List Char)
  deriving DecidableEq

/-- The successful-extraction path of `download_single_video` (bot.py
lines 789-837): metadata extraction, the thumbnail block, then the rename
to `sanitize_filename(title) + ext` (lines 829-836; kept at the original
path when `os.rename` raises `OSError`). -/
def download_single_video (m : VideoMeta) (renameOk : Bool)
    (has_thumbnail_url : Bool) (tb : ThumbBehavior) : DsvResult :=
  ⟨if renameOk then sanitize_filename m.title 100 ++ m.ext else m.id_path,
    m.uploader, m.title, thumbnail_step has_thumbnail_url tb⟩

/-- Counterexample to C9 as stated: when only the final JPEG re-encode
(`img_resized.save`, bot.py line 824) raises, the job proceeds with
`thumbnail_path` set to the cropped-thumbnail path — not `None` — because
the assignment at line 823 precedes the save. -/
theorem C9_counterexample :
    (download_single_video ⟨['t'], ['u'], ['.', 'm', 'p', '4'], ['i', 'd']⟩ true true
        ⟨true, true, true, false⟩).thumbnail_path = some thumb_cropped_path ∧
    some thumb_cropped_path ≠ (none : Option (List Char)) := by
  exact ⟨by decide, by decide⟩

/-- Claim C9 (amended): every thumbnail-step exception is caught inside the
thumbnail block and never affects the extraction result's video path,
title or uploader; when the failure occurs during fetch, decode, crop or
resize the result equals the no-thumbnail-URL run exactly (in particular
`thumbnail_path = none`); but when only the final save raises,
`thumbnail_path` is the already-assigned cropped path rather than `none`. -/
theorem C9_thumbnail_absorption (m : VideoMeta) (r : Bool) (tb : ThumbBehavior)
    (hfail : tb.fetchOk = false ∨ tb.decodeOk = false ∨ tb.transformOk = false) :
    download_single_video m r true tb = download_single_video m r false tb ∧
    (∀ tb2 : ThumbBehavior,
      (download_single_video m r true tb2).title = m.title ∧
      (download_single_video m r true tb2).uploader = m.uploader ∧
      (download_single_video m r true tb2).video_path =
        (download_single_video m r false tb2).video_path) ∧
    (∀ tb3 : ThumbBehavior, tb3.fetchOk = true → tb3.decodeOk = true →
      tb3.transformOk = true →
      (download_single_video m r true tb3).thumbnail_path = some thumb_cropped_path) := by
  refine ⟨?_, ?_, ?_⟩
  · unfold download_single_video
    have hnone : thumbnail_step true tb = none := by
      unfold thumbnail_step
      rcases hfail with h | h | h <;> simp [h]
    rw [hnone]
    rfl
  · intro tb2
    exact ⟨rfl, rfl, rfl⟩
  · intro tb3 h1 h2 h3
    unfold download_single_video thumbnail_step
    simp [h1, h2, h3]

/-- Witness for C9 (amended) at a concrete failing fetch. -/
theorem C9_thumbnail_absorption_witness :
    download_single_video ⟨['t'], ['u'], ['.', 'm', 'p', '4'], ['i', 'd']⟩ true true
        ⟨false, true, true, true⟩ =
      download_single_video ⟨['t'], ['u'], ['.', 'm', 'p', '4'], ['i', 'd']⟩ true false
        ⟨false, true, true, true⟩ ∧
    (∀ tb2 : ThumbBehavior,
      (download_single_video ⟨['t'], ['u'], ['.', 'm', 'p', '4'], ['i', 'd']⟩ true true
        tb2).title = (⟨['t'], ['u'], ['.', 'm', 'p', '4'], ['i', 'd']⟩ : VideoMeta).title ∧
      (download_single_video ⟨['t'], ['u'], ['.', 'm', 'p', '4'], ['i', 'd']⟩ true true
        tb2).uploader =
          (⟨['t'], ['u'], ['.', 'm', 'p', '4'], ['i', 'd']⟩ : VideoMeta).uploader ∧
      (download_single_video ⟨['t'], ['u'], ['.', 'm', 'p', '4'], ['i', 'd']⟩ true true
        tb2).video_path =
        (download_single_video ⟨['t'], ['u'], ['.', 'm', 'p', '4'], ['i', 'd']⟩ true false
          tb2).video_path) ∧
    (∀ tb3 : ThumbBehavior, tb3.fetchOk = true → tb3.decodeOk = true →
      tb3.transformOk = true →
      (download_single_video ⟨['t'], ['u'], ['.', 'm', 'p', '4'], ['i', 'd']⟩ true true
        tb3).thumbnail_path = some thumb_cropped_path) :=
  C9_thumbnail_absorption ⟨['t'], ['u'], ['.', 'm', 'p', '4'], ['i', 'd']⟩ true
    ⟨false, true, true, true⟩ (Or.inl rfl)

/-! ## Instagram two-stage extraction (claim C10)

`handle_instagram_content` (bot.py lines 310-391) first calls
`download_instagram_content` (instaloader, lines 116-238); if that yields
no files it calls `download_instagram_fallback` (yt-dlp, lines 241-307);
only when both yield no files does it edit the status message to the
user-facing failure text (lines 321-327).  Each download function removes
its own temp dir in its `except` block (lines 237, 306) and returns
`(None, None, None)`; the handler's `finally` (lines 388-390) removes the
last live temp dir on the success/exception paths. -/

/-- What one Instagram download attempt's inner machinery produced:
either some step raised, or a list of media files was found on disk. -/
inductive IgFetch where
  | throws
  | files (fs : List Nat)
  deriving DecidableEq

/-- `download_instagram_content` (bot.py lines 116-238): result and whether
the attempt's own temp dir has been removed when it returns.  An empty
file list raises "No media files found" (line 194), which is caught, so
the dir is removed; a non-empty list is returned with the dir still live
(the caller's `finally` owns it from then on). -/
def download_instagram_content (o : IgFetch) : Option (List Nat) × Bool :=
  match o with
  | .throws => (none, true)
  | .files fs => if fs = [] then (none, true) else (some fs, false)

/-- `download_instagram_fallback` (bot.py lines 241-307): identical
result/cleanup structure (empty-list raise at line 277, `except` cleanup
at line 306). -/
def download_instagram_fallback (o : IgFetch) : Option (List Nat) × Bool :=
  match o with
  | .throws => (none, true)
  | .files fs => if fs = [] then (none, true) else (some fs, false)

inductive InstaOutcome where
  | failureMessage
  | delivered (fs : List Nat)
  deriving DecidableEq

structure InstaResult where
  outcome : InstaOutcome
  fallbackAttempted : Bool
  primaryDirRemoved : Bool
  fallbackDirRemoved : Bool
  deriving DecidableEq

/-- `handle_instagram_content` (bot.py lines 310-391): primary attempt,
fallback only when the primary produced no files, failure message only
when both produced none; the `finally` removes whichever temp dir is still
live, and a dir belonging to a failed attempt was already removed by that
attempt itself. -/
def handle_instagram_content (p q : IgFetch) : InstaResult :=
  match (download_instagram_content p).1 with
  | some fs => ⟨.delivered fs, false, true, true⟩
  | none =>
    match (download_instagram_fallback q).1 with
    | some fs => ⟨.delivered fs, true, (download_instagram_content p).2, true⟩
    | none => ⟨.failureMessage, true, (download_instagram_content p).2,
        (download_instagram_fallback q).2⟩

theorem dic_none_removed (p : IgFetch) :
    (download_instagram_content p).1 = none → (download_instagram_content p).2 = true := by
  cases p with
  | throws => intro _; rfl
  | files fs =>
    by_cases h : fs = []
    · intro _
      simp [download_instagram_content, h]
    · intro hc
      simp [download_instagram_content, h] at hc

theorem dif_none_removed (q : IgFetch) :
    (download_instagram_fallback q).1 = none → (download_instagram_fallback q).2 = true := by
  cases q with
  | throws => intro _; rfl
  | files fs =>
    by_cases h : fs = []
    · intro _
      simp [download_instagram_fallback, h]
    · intro hc
      simp [download_instagram_fallback, h] at hc

/-- Claim C10: the yt-dlp fallback is attempted exactly when the
instaloader attempt yields no files; the user-facing failure message is
emitted exactly when both attempts yield no files; each failed attempt has
removed its own temp dir, and after the handler no attempt's temp dir
remains on disk. -/
theorem C10_instagram_fallback (p q : IgFetch) :
    ((handle_instagram_content p q).fallbackAttempted = true ↔
      (download_instagram_content p).1 = none) ∧
    ((handle_instagram_content p q).outcome = InstaOutcome.failureMessage ↔
      ((download_instagram_content p).1 = none ∧
        (download_instagram_fallback q).1 = none)) ∧
    ((download_instagram_content p).1 = none →
      (download_instagram_content p).2 = true) ∧
    ((download_instagram_fallback q).1 = none →
      (download_instagram_fallback q).2 = true) ∧
    (handle_instagram_content p q).primaryDirRemoved = true ∧
    (handle_instagram_content p q).fallbackDirRemoved = true := by
  have hd1 := dic_none_removed p
  have hd2 := dif_none_removed q
  refine ⟨?_, ?_, hd1, hd2, ?_, ?_⟩ <;>
  · rcases h1 : (download_instagram_content p).1 with _ | fs1 <;>
      rcases h2 : (download_instagram_fallback q).1 with _ | fs2 <;>
      unfold handle_instagram_content <;>
      rw [h1] <;>
      first
        | simp [h1, h2, hd1 h1, hd2 h2]
        | simp [h1, h2, hd1 h1]
        | simp [h1, h2, hd2 h2]
        | simp [h1, h2]

/-- Witness for C10 at a primary attempt that raises and a fallback that
finds one file. -/
theorem C10_instagram_fallback_witness :
    ((handle_instagram_content IgFetch.throws (IgFetch.files [0])).fallbackAttempted = true ↔
      (download_instagram_content IgFetch.throws).1 = none) ∧
    ((handle_instagram_content IgFetch.throws (IgFetch.files [0])).outcome =
        InstaOutcome.failureMessage ↔
      ((download_instagram_content IgFetch.throws).1 = none ∧
        (download_instagram_fallback (IgFetch.files [0])).1 = none)) ∧
    ((download_instagram_content IgFetch.throws).1 = none →
      (download_instagram_content IgFetch.throws).2 = true) ∧
    ((download_instagram_fallback (IgFetch.files [0])).1 = none →
      (download_instagram_fallback (IgFetch.files [0])).2 = true) ∧
    (handle_instagram_content IgFetch.throws (IgFetch.files [0])).primaryDirRemoved = true ∧
    (handle_instagram_content IgFetch.throws (IgFetch.files [0])).fallbackDirRemoved = true :=
  C10_instagram_fallback IgFetch.throws (IgFetch.files [0])

end Bot
